import Mathlib

/-!
Verification of the OTP email-verification flow and the client-side
access-control logic of the user-management application.

The frontend definitions are shallow embeddings of the TypeScript source
(`AuthContext.tsx`, `verify-email/page.tsx`, the admin user-management page
and the `EmailVerificationGuard` component).  The backend OTP service
(issue / resend / verify) is not part of the provided sources, so it is
modelled from the specification text, as marked on each definition.
-/

namespace Spec2Proof

/-- Roles carried by user records (`role IN ('admin', 'user', 'company')`
in the database schema and the frontend `Role` union type). -/
inductive Role
  | admin
  | user
  | company
deriving DecidableEq, Repr

/-- A user record as exposed to the frontend (`User` interface in
`api.ts` and the admin page), restricted to the fields the verified
properties mention. -/
structure UserRec where
  id : Nat
  email : String
  role : Role
  isEmailVerified : Bool
deriving DecidableEq, Repr

/-! ## Session / Role gate (frontend composition)

Embedded from `EmailVerificationGuard` (checks authentication, then the
`is_email_verified` flag) and from the admin user-management page, which
checks `!user`, then `user.role !== 'admin'`, and only then wraps its
content in `EmailVerificationGuard`. -/

/-- Outcome of a gate decision for a request to a protected page. -/
inductive GateResult
  | unauthenticated
  | forbidden
  | verificationRequired
  | granted
deriving DecidableEq, Repr

/-- Decision function of the `EmailVerificationGuard` component: no user
means access denied; an unverified user is redirected to the OTP flow;
otherwise the children render. -/
def emailVerificationGuard (u : Option UserRec) : GateResult :=
  match u with
  | none => GateResult.unauthenticated
  | some x => if x.isEmailVerified = false then GateResult.verificationRequired else GateResult.granted

/-- Decision function of the admin user-management page: after loading it
returns Access Denied when there is no user, then Access Denied when the
role is not admin, and only then delegates to `emailVerificationGuard`. -/
def adminPageGate (u : Option UserRec) : GateResult :=
  match u with
  | none => GateResult.unauthenticated
  | some x =>
    if x.role ≠ Role.admin then GateResult.forbidden
    else emailVerificationGuard (some x)

/-! ## Client session storage (`AuthContext.tsx`) -/

/-- The three localStorage keys the auth context manages. -/
structure LocalStorage where
  token : Option String
  userData : Option String
  tokenExpiry : Option Nat
deriving DecidableEq, Repr

/-- Two days in milliseconds, the token lifetime used by `login`. -/
def twoDaysMs : Nat := 2 * 24 * 60 * 60 * 1000

/-- Embedding of the `initAuth` effect: when both `token` and
`tokenExpiry` are stored and `now < expiry`, it asks the server for the
current user (`serverAccepts` abstracts that call succeeding) and
restores the session; when the server rejects or the token is expired it
removes the `token`, `user` and `tokenExpiry` keys; when either key is
missing it does nothing.  The second component is the resulting `user`
state. -/
def initAuth (store : LocalStorage) (now : Nat) (serverAccepts : Bool)
    (serverUser : UserRec) : LocalStorage × Option UserRec :=
  match store.token, store.tokenExpiry with
  | some _, some expiry =>
    if now < expiry then
      if serverAccepts then (store, some serverUser)
      else (⟨none, none, none⟩, none)
    else (⟨none, none, none⟩, none)
  | _, _ => (store, none)

/-- Embedding of the storage writes of a successful `login` at time
`now`: stores the access token, an expiry of `now` plus two days in
milliseconds, and the fetched user data. -/
def loginStore (now : Nat) (accessToken : String) (userJson : String) : LocalStorage :=
  ⟨some accessToken, some userJson, some (now + twoDaysMs)⟩

/-! ## Verify-email page state machine (`verify-email/page.tsx`) -/

/-- Component state of `VerifyEmailContent` relevant to OTP sending:
the `verificationAttempted` flag, the resend `countdown` in seconds and
the `isLoading` flag. -/
structure PageState where
  attempted : Bool
  countdown : Nat
  isLoading : Bool
deriving DecidableEq, Repr

/-- Initial state of the page: `useState(false)`, `useState(0)`,
`useState(false)`. -/
def initPage : PageState := ⟨false, 0, false⟩

/-- Events acting on the page state: the auto-send effect run, completion
of a send request (with the returned `expires_in_minutes`), a failed
send, a click on the resend button, and one countdown tick. -/
inductive PageEvent
  | autoEffect
  | sendSucceed (expiresInMinutes : Nat)
  | sendFail
  | resendClick
  | tick
deriving DecidableEq, Repr

/-- The resend button is enabled iff `isLoading` is false and the
countdown has reached zero (`disabled={isLoading || countdown > 0}`). -/
def resendEnabled (s : PageState) : Bool :=
  !s.isLoading && s.countdown == 0

/-- Entry of `sendOTP` (with a non-empty email): sets `isLoading` and
`verificationAttempted` to true before the request is awaited. -/
def startSend (s : PageState) : PageState :=
  ⟨true, s.countdown, true⟩

/-- One step of the page state machine.  The boolean result records
whether this step performed an automatic (effect-triggered) send: the
`useEffect` calls `sendOTP` only when the email is non-empty and
`verificationAttempted` is still false.  A resend click calls `sendOTP`
only while the button is enabled; it is an explicit user action, so it
is not counted as automatic. -/
def step (email : String) (s : PageState) : PageEvent → PageState × Bool
  | PageEvent.autoEffect =>
    if email != "" && !s.attempted then (startSend s, true) else (s, false)
  | PageEvent.sendSucceed m => (⟨s.attempted, m * 60, false⟩, false)
  | PageEvent.sendFail => (⟨s.attempted, s.countdown, false⟩, false)
  | PageEvent.resendClick =>
    if resendEnabled s then (startSend s, false) else (s, false)
  | PageEvent.tick => (⟨s.attempted, s.countdown - 1, s.isLoading⟩, false)

/-- Run a sequence of page events, counting automatic sends. -/
def runPage (email : String) (s : PageState) : List PageEvent → PageState × Nat
  | [] => (s, 0)
  | ev :: rest =>
    let p := step email s ev
    let q := runPage email p.1 rest
    (q.1, (if p.2 then 1 else 0) + q.2)

/-! ## OTP service model

The FastAPI email routes implementing `issue`, `resend` and `verify`
are not among the provided sources (only their callers in the frontend
and the setup guide are), so the definitions below are modelled from
the specification of the OTP Issuer and OTP Verifier. -/

/-- An OTP record: target email, 6-digit code, issued-at and expires-at
timestamps (seconds), the single-use flag, and a superseded flag set by
`resend` on older records. -/
structure OtpRecord where
  email : String
  code : Nat
  issuedAt : Nat
  expiresAt : Nat
  used : Bool
  superseded : Bool
deriving DecidableEq, Repr

/-- Store state: OTP records (newest first) and user records. -/
structure OtpState where
  otps : List OtpRecord
  users : List UserRec
deriving DecidableEq, Repr

/-- Errors of the OTP flow, from the error taxonomy of the design. -/
inductive OtpError
  | validationError
  | rateLimitExceeded
  | notFound
  | expired
  | mismatch
  | alreadyUsed
deriving DecidableEq, Repr

/-- Successful issue response: the generated code and the fixed
`expires_in_minutes` value. -/
structure IssueOk where
  code : Nat
  expiresInMinutes : Nat
deriving DecidableEq, Repr

/-- The fixed validity window of a code, in minutes. -/
def otpValidityMinutes : Nat := 10

/-- The validity window in seconds. -/
def otpValiditySeconds : Nat := otpValidityMinutes * 60

/-- Split a character list at the first occurrence of `c`, returning the
part before and the part after. -/
def splitFirst (c : Char) : List Char → Option (List Char × List Char)
  | [] => none
  | x :: rest =>
    if x = c then some ([], rest)
    else
      match splitFirst c rest with
      | none => none
      | some p => some (x :: p.1, p.2)

/-- A domain is acceptable when it contains a dot with a non-empty part
on each side. -/
def domOk (dom : List Char) : Bool :=
  match splitFirst '.' dom with
  | none => false
  | some p => decide (p.1 ≠ []) && decide (p.2 ≠ [])

/-- Modelled from the spec: a syntactically valid email address has one
at-sign separating a non-empty local part from a non-empty dotted
domain. -/
def validEmail (s : String) : Bool :=
  match splitFirst '@' s.data with
  | none => false
  | some p => decide (p.1 ≠ []) && decide ('@' ∉ p.2) && domOk p.2

/-- Modelled from the spec: the generator draws a 6-digit numeric code
from a source of randomness, abstracted here as reduction of an
arbitrary random seed to the 6-digit range. -/
def genCode (rand : Nat) : Nat := rand % 1000000

/-- The six decimal digits of a code, most significant first (the wire
form of a 6-digit numeric code, leading zeros included). -/
def codeDigits (c : Nat) : List Char :=
  [Nat.digitChar (c / 100000 % 10), Nat.digitChar (c / 10000 % 10),
   Nat.digitChar (c / 1000 % 10), Nat.digitChar (c / 100 % 10),
   Nat.digitChar (c / 10 % 10), Nat.digitChar (c % 10)]

/-- A record is active at `now` when it is unused, not superseded, and
unexpired; per the expiry-boundary rule a code submitted at exactly
`expiresAt` is already expired, so unexpired means `now < expiresAt`. -/
def isActiveAt (now : Nat) (r : OtpRecord) : Bool :=
  !r.used && !r.superseded && decide (now < r.expiresAt)

/-- Modelled from the spec: `issue(email)` validates the address, fails
with `RateLimitExceeded` while a still-valid (active) code exists for
the email — the cooldown is the remaining validity of the last-issued
code — and otherwise persists a new record expiring a fixed 10 minutes
later, returning the code and `expires_in_minutes`. -/
def issue (s : OtpState) (e : String) (now : Nat) (rand : Nat) :
    Except OtpError (OtpState × IssueOk) :=
  if validEmail e = false then Except.error OtpError.validationError
  else if s.otps.any (fun r => r.email == e && isActiveAt now r) then
    Except.error OtpError.rateLimitExceeded
  else
    Except.ok (⟨⟨e, genCode rand, now, now + otpValiditySeconds, false, false⟩ :: s.otps, s.users⟩,
      ⟨genCode rand, otpValidityMinutes⟩)

/-- Mark every record for the given email superseded. -/
def supersedeAll (otps : List OtpRecord) (e : String) : List OtpRecord :=
  otps.map (fun r => if r.email == e then ⟨r.email, r.code, r.issuedAt, r.expiresAt, r.used, true⟩ else r)

/-- Modelled from the spec: `resend(email)` behaves like `issue` but is
explicitly allowed to supersede a still-valid code: it marks every
previous record for the email superseded so only the newest is
checkable, then persists a fresh record. -/
def resend (s : OtpState) (e : String) (now : Nat) (rand : Nat) :
    Except OtpError (OtpState × IssueOk) :=
  if validEmail e = false then Except.error OtpError.validationError
  else
    Except.ok (⟨⟨e, genCode rand, now, now + otpValiditySeconds, false, false⟩ :: supersedeAll s.otps e, s.users⟩,
      ⟨genCode rand, otpValidityMinutes⟩)

/-- The authoritative record for an email: the latest (records are kept
newest first) record with that email that has not been superseded. -/
def findLatest : List OtpRecord → String → Option OtpRecord
  | [], _ => none
  | r :: rest, e =>
    if r.email == e && !r.superseded then some r else findLatest rest e

/-- Mark the authoritative (first non-superseded) record for the email
as used. -/
def markLatestUsed : List OtpRecord → String → List OtpRecord
  | [], _ => []
  | r :: rest, e =>
    if r.email == e && !r.superseded then
      ⟨r.email, r.code, r.issuedAt, r.expiresAt, true, r.superseded⟩ :: rest
    else r :: markLatestUsed rest e

/-- Set the `is_email_verified` flag of every user with the email. -/
def setVerified (users : List UserRec) (e : String) : List UserRec :=
  users.map (fun u => if u.email == e then ⟨u.id, u.email, u.role, true⟩ else u)

/-- Modelled from the spec: `verify(email, code)` looks up the
authoritative record; with no record it fails with `NotFound`; a record
already consumed yields `AlreadyUsed` (checked first so that a second
verify with the same correct code never silently succeeds); a record
expired at `now` — inclusively at the boundary — yields `Expired`; a
wrong code yields `Mismatch`; otherwise it marks the record used and
sets the owning user verified, both in the returned state. -/
def verify (s : OtpState) (e : String) (c : Nat) (now : Nat) :
    Except OtpError OtpState :=
  match findLatest s.otps e with
  | none => Except.error OtpError.notFound
  | some r =>
    if r.used then Except.error OtpError.alreadyUsed
    else if r.expiresAt ≤ now then Except.error OtpError.expired
    else if c ≠ r.code then Except.error OtpError.mismatch
    else Except.ok ⟨markLatestUsed s.otps e, setVerified s.users e⟩

/-- Whether a verify call reported success. -/
def verifyOk (s : OtpState) (e : String) (c : Nat) (now : Nat) : Bool :=
  match verify s e c now with
  | Except.ok _ => true
  | Except.error _ => false

/-! ### Operation traces over the OTP store -/

/-- An operation against the OTP service. -/
inductive Op
  | issueOp (e : String) (rand : Nat)
  | resendOp (e : String) (rand : Nat)
  | verifyOp (e : String) (c : Nat)
deriving DecidableEq, Repr

/-- Apply one operation at time `now`; a failed operation leaves the
store unchanged. -/
def applyOp (s : OtpState) (now : Nat) : Op → OtpState
  | Op.issueOp e rand =>
    match issue s e now rand with
    | Except.ok p => p.1
    | Except.error _ => s
  | Op.resendOp e rand =>
    match resend s e now rand with
    | Except.ok p => p.1
    | Except.error _ => s
  | Op.verifyOp e c =>
    match verify s e c now with
    | Except.ok s1 => s1
    | Except.error _ => s

/-- Run a timed sequence of operations. -/
def runOps (s : OtpState) : List (Nat × Op) → OtpState
  | [] => s
  | p :: rest => runOps (applyOp s p.1 p.2) rest

/-- Timestamps of a trace are non-decreasing, starting from `t0`. -/
def timesMono : Nat → List (Nat × Op) → Prop
  | _, [] => True
  | t, p :: rest => t ≤ p.1 ∧ timesMono p.1 rest

/-- The time at the end of a trace. -/
def endTime : Nat → List (Nat × Op) → Nat
  | t, [] => t
  | _, p :: rest => endTime p.1 rest

/-- Number of active (unused, unexpired, not superseded) records for an
email at a time. -/
def countActive (l : List OtpRecord) (e : String) (now : Nat) : Nat :=
  (l.filter (fun r => r.email == e && isActiveAt now r)).length

instance (t : Nat) (ops : List (Nat × Op)) : Decidable (timesMono t ops) := by
  induction ops generalizing t with
  | nil => exact isTrue trivial
  | cons p rest ih => exact @instDecidableAnd _ _ _ (ih p.1)

/-! ### Concrete sample data used to evaluate the model -/

/-- The store before any OTP has been issued. -/
def emptyState : OtpState := ⟨[], []⟩

/-- An unverified sample user. -/
def sampleUser : UserRec := ⟨1, "a@b.cd", Role.user, false⟩

/-- A fresh OTP record issued at time 0 for the sample user. -/
def sampleRecord : OtpRecord := ⟨"a@b.cd", 123456, 0, 600, false, false⟩

/-- A store holding the fresh record and the unverified user. -/
def sampleState : OtpState := ⟨[sampleRecord], [sampleUser]⟩

/-- The store after the sample code has been verified: the record is
consumed and the user is verified. -/
def sampleStateUsed : OtpState :=
  ⟨[⟨"a@b.cd", 123456, 0, 600, true, false⟩], [⟨1, "a@b.cd", Role.user, true⟩]⟩

/-- The store right after `issue` on the empty store at time 0. -/
def sampleIssued : OtpState := ⟨[⟨"a@b.cd", 123456, 0, 600, false, false⟩], []⟩

/-- The store after a `resend` at time 30 on `sampleIssued`. -/
def sampleResent : OtpState :=
  ⟨[⟨"a@b.cd", 654321, 30, 630, false, false⟩, ⟨"a@b.cd", 123456, 0, 600, false, true⟩], []⟩

/-! ## Admin page delete button (`handleDeleteUser` row rendering) -/

/-- The delete button of a user row is disabled exactly when the row id
equals the logged-in user id (`disabled={userItem.id === user.id}`). -/
def deleteButtonDisabled (rowUserId currentUserId : Nat) : Bool :=
  rowUserId == currentUserId

/-! ## Theorems -/

/-- C10: on the admin user-management page the delete button of a row is
disabled exactly when the row user id equals the logged-in user id, so
`handleDeleteUser` is only invocable with a userId different from the
current user id. -/
theorem C10_delete_button_guards_self (rowId curId : Nat) :
    (deleteButtonDisabled rowId curId = true ↔ rowId = curId) ∧
    (deleteButtonDisabled rowId curId = false → rowId ≠ curId) := by
  constructor
  · simp [deleteButtonDisabled]
  · intro h
    simp [deleteButtonDisabled] at h
    exact h

theorem C10_delete_button_guards_self_witness : (3 : Nat) ≠ 4 :=
  (C10_delete_button_guards_self 3 4).2 (by decide)

/-- C2 counterexample: an authenticated but unverified user with an
insufficient role receives Forbidden from the admin page gate, not
VerificationRequired as the claim states. -/
theorem C2_counterexample :
    adminPageGate (some ⟨2, "u@example.com", Role.user, false⟩) = GateResult.forbidden ∧
    adminPageGate (some ⟨2, "u@example.com", Role.user, false⟩) ≠ GateResult.verificationRequired := by
  exact ⟨rfl, by decide⟩

/-- C2 amended: the admin page evaluates its checks in the order: no
session yields Unauthenticated, then an insufficient role yields
Forbidden, and only then an unverified email yields
VerificationRequired; otherwise the request is admitted.  In particular
an authenticated but unverified user with an insufficient role receives
Forbidden. -/
theorem C2_gate_order_role_before_verification (u : Option UserRec) :
    (u = none → adminPageGate u = GateResult.unauthenticated) ∧
    (∀ x, u = some x → x.role ≠ Role.admin → adminPageGate u = GateResult.forbidden) ∧
    (∀ x, u = some x → x.role = Role.admin → x.isEmailVerified = false →
      adminPageGate u = GateResult.verificationRequired) ∧
    (∀ x, u = some x → x.role = Role.admin → x.isEmailVerified = true →
      adminPageGate u = GateResult.granted) := by
  refine ⟨?_, ?_, ?_, ?_⟩
  · rintro rfl; rfl
  · rintro x rfl h
    simp [adminPageGate, h]
  · rintro x rfl h1 h2
    simp [adminPageGate, emailVerificationGuard, h1, h2]
  · rintro x rfl h1 h2
    simp [adminPageGate, emailVerificationGuard, h1, h2]

theorem C2_gate_order_witness :
    adminPageGate (some ⟨1, "a@b.cd", Role.admin, false⟩) = GateResult.verificationRequired :=
  (C2_gate_order_role_before_verification (some ⟨1, "a@b.cd", Role.admin, false⟩)).2.2.1
    ⟨1, "a@b.cd", Role.admin, false⟩ rfl rfl rfl

/-- C8 counterexample: with a token stored but no stored tokenExpiry,
initialization restores nothing, yet — contrary to the claim — it also
removes nothing: the stored user entry survives. -/
theorem C8_counterexample :
    (initAuth ⟨some "t", some "u", none⟩ 5 true ⟨1, "a@b.cd", Role.user, true⟩).2 = none ∧
    (initAuth ⟨some "t", some "u", none⟩ 5 true ⟨1, "a@b.cd", Role.user, true⟩).1.userData = some "u" :=
  ⟨rfl, rfl⟩

/-- C8 amended: initialization restores a session only when both a token
and a tokenExpiry are stored, now is strictly below the expiry and the
server accepts the token; when both keys are stored but the expiry
check or the server call fails it removes token, user and tokenExpiry;
when either key is missing it leaves storage unchanged and the user
unauthenticated; and a successful login sets tokenExpiry to exactly two
days in milliseconds after the login time. -/
theorem C8_session_restore (store : LocalStorage) (now : Nat) (ok : Bool) (u : UserRec) :
    ((initAuth store now ok u).2 ≠ none →
      ∃ tk exp, store.token = some tk ∧ store.tokenExpiry = some exp ∧ now < exp ∧ ok = true) ∧
    (∀ tk exp, store.token = some tk → store.tokenExpiry = some exp →
      ¬(now < exp ∧ ok = true) → initAuth store now ok u = (⟨none, none, none⟩, none)) ∧
    ((store.token = none ∨ store.tokenExpiry = none) → initAuth store now ok u = (store, none)) ∧
    (∀ t a j, (loginStore t a j).tokenExpiry = some (t + 2 * 24 * 60 * 60 * 1000)) := by
  obtain ⟨tok, ud, te⟩ := store
  refine ⟨?_, ?_, ?_, ?_⟩
  · cases tok with
    | none => intro h; simp [initAuth] at h
    | some tk =>
      cases te with
      | none => intro h; simp [initAuth] at h
      | some exp =>
        intro h
        by_cases hlt : now < exp
        · cases ok with
          | false => simp [initAuth, hlt] at h
          | true => exact ⟨tk, exp, rfl, rfl, hlt, rfl⟩
        · simp [initAuth, hlt] at h
  · rintro tk exp rfl rfl hno
    by_cases hlt : now < exp
    · cases ok with
      | false => simp [initAuth, hlt]
      | true => exact absurd ⟨hlt, rfl⟩ hno
    · simp [initAuth, hlt]
  · rintro (rfl | rfl)
    · cases te <;> rfl
    · cases tok <;> rfl
  · intro t a j
    rfl

theorem C8_session_restore_witness :
    initAuth ⟨some "t", some "u", some 10⟩ 10 true ⟨1, "e@x.yz", Role.user, true⟩ =
      (⟨none, none, none⟩, none) :=
  (C8_session_restore ⟨some "t", some "u", some 10⟩ 10 true ⟨1, "e@x.yz", Role.user, true⟩).2.1
    "t" 10 rfl rfl (by decide)

/-! ### Helper lemmas for the verify-email page -/

theorem step_attempted_mono (email : String) (s : PageState) (ev : PageEvent)
    (h : s.attempted = true) : (step email s ev).1.attempted = true := by
  cases ev with
  | autoEffect => simp [step, h]
  | sendSucceed m => simpa [step] using h
  | sendFail => simpa [step] using h
  | resendClick =>
    simp only [step]
    split
    · rfl
    · exact h
  | tick => simpa [step] using h

theorem step_no_auto_of_attempted (email : String) (s : PageState) (ev : PageEvent)
    (h : s.attempted = true) : (step email s ev).2 = false := by
  cases ev with
  | autoEffect => simp [step, h]
  | sendSucceed m => rfl
  | sendFail => rfl
  | resendClick =>
    simp only [step]
    split <;> rfl
  | tick => rfl

theorem step_auto_attempted (email : String) (s : PageState) (ev : PageEvent)
    (h : (step email s ev).2 = true) : (step email s ev).1.attempted = true := by
  cases ev with
  | autoEffect =>
    simp only [step] at h ⊢
    by_cases hc : (email != "" && !s.attempted) = true
    · rw [if_pos hc]
      rfl
    · rw [if_neg hc] at h
      exact absurd h (by simp)
  | sendSucceed m => exact absurd h (by simp [step])
  | sendFail => exact absurd h (by simp [step])
  | resendClick =>
    simp only [step] at h ⊢
    by_cases hc : resendEnabled s = true
    · rw [if_pos hc]
      rfl
    · rw [if_neg hc] at h
      exact absurd h (by simp)
  | tick => exact absurd h (by simp [step])

theorem runPage_no_auto (email : String) (s : PageState) (evs : List PageEvent)
    (h : s.attempted = true) : (runPage email s evs).2 = 0 := by
  induction evs generalizing s with
  | nil => rfl
  | cons ev rest ih =>
    have hm := step_attempted_mono email s ev h
    have hb := step_no_auto_of_attempted email s ev h
    simp [runPage, hb, ih _ hm]

theorem runPage_le_one (email : String) (s : PageState) (evs : List PageEvent) :
    (runPage email s evs).2 ≤ 1 := by
  induction evs generalizing s with
  | nil => simp [runPage]
  | cons ev rest ih =>
    by_cases hb : (step email s ev).2 = true
    · have hm := step_auto_attempted email s ev hb
      simp [runPage, hb, runPage_no_auto email _ rest hm]
    · have hb2 : (step email s ev).2 = false := by simpa using hb
      simp only [runPage, hb2, if_false]
      simpa using ih (step email s ev).1

/-- C9: on a load of the verify-email page with a non-empty email the
mount effect performs exactly one automatic send; the
verificationAttempted flag prevents any further automatic send for that
page instance even if the first send fails, and any further send is the
explicit resend button, enabled only while not loading and once the
countdown has reached zero. -/
theorem C9_auto_send_once (email : String) (evs : List PageEvent) (h : email ≠ "") :
    (runPage email initPage (PageEvent.autoEffect :: evs)).2 = 1 ∧
    (∀ evs2 : List PageEvent, (runPage email initPage evs2).2 ≤ 1) ∧
    (∀ s : PageState, resendEnabled s = true ↔ (s.isLoading = false ∧ s.countdown = 0)) := by
  refine ⟨?_, ?_, ?_⟩
  · have hcond : (email != "") = true := by simpa using h
    have hstep : step email initPage PageEvent.autoEffect = (startSend initPage, true) := by
      simp [step, initPage, hcond]
    have hrest : (runPage email (startSend initPage) evs).2 = 0 :=
      runPage_no_auto email (startSend initPage) evs rfl
    simp [runPage, hstep, hrest]
  · intro evs2
    exact runPage_le_one email initPage evs2
  · intro s
    simp [resendEnabled]

theorem C9_auto_send_once_witness :
    (runPage "a@b.cd" initPage
      [PageEvent.autoEffect, PageEvent.sendFail, PageEvent.resendClick, PageEvent.autoEffect]).2 = 1 :=
  (C9_auto_send_once "a@b.cd" [PageEvent.sendFail, PageEvent.resendClick, PageEvent.autoEffect]
    (by decide)).1

/-! ### Helper lemmas for the OTP model -/

theorem findLatest_some (otps : List OtpRecord) (e : String) (r : OtpRecord)
    (h : findLatest otps e = some r) : r.email = e ∧ r.superseded = false := by
  induction otps with
  | nil => simp [findLatest] at h
  | cons a rest ih =>
    rw [findLatest] at h
    by_cases hc : (a.email == e && !a.superseded) = true
    · rw [if_pos hc] at h
      have ha : a = r := Option.some.inj h
      subst ha
      simpa [Bool.and_eq_true, Bool.not_eq_true'] using hc
    · rw [if_neg hc] at h
      exact ih h

theorem verify_ok_dest (s : OtpState) (e : String) (c now : Nat) (s1 : OtpState)
    (h : verify s e c now = Except.ok s1) :
    ∃ r, findLatest s.otps e = some r ∧ r.used = false ∧ now < r.expiresAt ∧ c = r.code ∧
      s1 = ⟨markLatestUsed s.otps e, setVerified s.users e⟩ := by
  unfold verify at h
  split at h
  · exact absurd h (by simp)
  · next r hf =>
    split at h
    · exact absurd h (by simp)
    · next hu =>
      split at h
      · exact absurd h (by simp)
      · next hexp =>
        split at h
        · exact absurd h (by simp)
        · next hc =>
          push_neg at hc hexp
          exact ⟨r, hf, by simpa using hu, hexp, hc, (Except.ok.inj h).symm⟩

theorem issue_ok_dest (s : OtpState) (e : String) (now rand : Nat) (s1 : OtpState) (ok1 : IssueOk)
    (h : issue s e now rand = Except.ok (s1, ok1)) :
    validEmail e = true ∧
    s.otps.any (fun r => r.email == e && isActiveAt now r) = false ∧
    s1 = ⟨⟨e, genCode rand, now, now + otpValiditySeconds, false, false⟩ :: s.otps, s.users⟩ ∧
    ok1 = ⟨genCode rand, otpValidityMinutes⟩ := by
  unfold issue at h
  by_cases hv : validEmail e = false
  · rw [if_pos hv] at h; exact absurd h (by simp)
  · rw [if_neg hv] at h
    by_cases ha : s.otps.any (fun r => r.email == e && isActiveAt now r) = true
    · rw [if_pos ha] at h; exact absurd h (by simp)
    · rw [if_neg ha] at h
      have hp := Except.ok.inj h
      have h1 : s1 = ⟨⟨e, genCode rand, now, now + otpValiditySeconds, false, false⟩ :: s.otps, s.users⟩ :=
        (congrArg Prod.fst hp).symm
      have h2 : ok1 = ⟨genCode rand, otpValidityMinutes⟩ := (congrArg Prod.snd hp).symm
      exact ⟨by simpa using hv, by simpa using ha, h1, h2⟩

theorem resend_ok_dest (s : OtpState) (e : String) (now rand : Nat) (s1 : OtpState) (ok1 : IssueOk)
    (h : resend s e now rand = Except.ok (s1, ok1)) :
    validEmail e = true ∧
    s1 = ⟨⟨e, genCode rand, now, now + otpValiditySeconds, false, false⟩ :: supersedeAll s.otps e, s.users⟩ ∧
    ok1 = ⟨genCode rand, otpValidityMinutes⟩ := by
  unfold resend at h
  by_cases hv : validEmail e = false
  · rw [if_pos hv] at h; exact absurd h (by simp)
  · rw [if_neg hv] at h
    have hp := Except.ok.inj h
    exact ⟨by simpa using hv, (congrArg Prod.fst hp).symm, (congrArg Prod.snd hp).symm⟩

theorem findLatest_markLatestUsed (otps : List OtpRecord) (e : String) (r : OtpRecord)
    (hf : findLatest otps e = some r) :
    findLatest (markLatestUsed otps e) e =
      some ⟨r.email, r.code, r.issuedAt, r.expiresAt, true, r.superseded⟩ := by
  induction otps with
  | nil => simp [findLatest] at hf
  | cons a rest ih =>
    rw [findLatest] at hf
    by_cases hc : (a.email == e && !a.superseded) = true
    · rw [if_pos hc] at hf
      have hr : a = r := Option.some.inj hf
      subst hr
      rw [markLatestUsed, if_pos hc, findLatest, if_pos (by simpa using hc)]
    · rw [if_neg hc] at hf
      rw [markLatestUsed, if_neg hc, findLatest, if_neg hc]
      exact ih hf

theorem setVerified_mem (users : List UserRec) (e : String) (u : UserRec)
    (hu : u ∈ setVerified users e) (he : u.email = e) : u.isEmailVerified = true := by
  unfold setVerified at hu
  rcases List.mem_map.mp hu with ⟨a, ha, hfa⟩
  by_cases hae : (a.email == e) = true
  · rw [if_pos hae] at hfa
    rw [← hfa]
  · rw [if_neg hae] at hfa
    rw [← hfa] at he
    simp only [beq_iff_eq] at hae
    exact absurd he hae

theorem supersedeAll_mem (l : List OtpRecord) (e : String) (r : OtpRecord)
    (hr : r ∈ supersedeAll l e) (he : r.email = e) : r.superseded = true := by
  unfold supersedeAll at hr
  rcases List.mem_map.mp hr with ⟨a, ha, hfa⟩
  by_cases hae : (a.email == e) = true
  · rw [if_pos hae] at hfa
    rw [← hfa]
  · rw [if_neg hae] at hfa
    rw [← hfa] at he
    simp only [beq_iff_eq] at hae
    exact absurd he hae

theorem isActiveAt_mono (t1 t2 : Nat) (r : OtpRecord) (hle : t1 ≤ t2)
    (h : isActiveAt t2 r = true) : isActiveAt t1 r = true := by
  simp only [isActiveAt, Bool.and_eq_true, Bool.not_eq_true', decide_eq_true_eq] at h ⊢
  exact ⟨h.1, lt_of_le_of_lt hle h.2⟩

theorem findLatest_eq_none (otps : List OtpRecord) (e : String)
    (h : ∀ r ∈ otps, r.email ≠ e) : findLatest otps e = none := by
  induction otps with
  | nil => rfl
  | cons a rest ih =>
    have ha : a.email ≠ e := h a (List.mem_cons_self a rest)
    rw [findLatest, if_neg (by simp [ha])]
    exact ih (fun r hr => h r (List.mem_cons_of_mem a hr))

theorem verify_of_none (s : OtpState) (e : String) (c t : Nat)
    (hf : findLatest s.otps e = none) :
    verify s e c t = Except.error OtpError.notFound := by
  unfold verify
  split
  · rfl
  · next r2 hf2 => rw [hf] at hf2; exact absurd hf2 (by simp)

theorem verify_already_used (s : OtpState) (e : String) (c t : Nat) (r : OtpRecord)
    (hf : findLatest s.otps e = some r) (hu : r.used = true) :
    verify s e c t = Except.error OtpError.alreadyUsed := by
  unfold verify
  split
  · next hnone => rw [hnone] at hf; exact absurd hf (by simp)
  · next r2 hf2 =>
    rw [hf2] at hf
    have h2 : r2 = r := Option.some.inj hf
    subst h2
    rw [if_pos hu]

theorem verify_expired (s : OtpState) (e : String) (c t : Nat) (r : OtpRecord)
    (hf : findLatest s.otps e = some r) (hu : r.used = false) (hexp : r.expiresAt ≤ t) :
    verify s e c t = Except.error OtpError.expired := by
  unfold verify
  split
  · next hnone => rw [hnone] at hf; exact absurd hf (by simp)
  · next r2 hf2 =>
    rw [hf2] at hf
    have h2 : r2 = r := Option.some.inj hf
    subst h2
    rw [if_neg (by simp [hu]), if_pos hexp]

theorem verify_succeeds (s : OtpState) (e : String) (c t : Nat) (r : OtpRecord)
    (hf : findLatest s.otps e = some r) (hu : r.used = false) (hexp : t < r.expiresAt)
    (hc : c = r.code) :
    verify s e c t = Except.ok ⟨markLatestUsed s.otps e, setVerified s.users e⟩ := by
  unfold verify
  split
  · next hnone => rw [hnone] at hf; exact absurd hf (by simp)
  · next r2 hf2 =>
    rw [hf2] at hf
    have h2 : r2 = r := Option.some.inj hf
    subst h2
    rw [if_neg (by simp [hu]), if_neg (Nat.not_le.mpr hexp), if_neg (not_not_intro hc)]

/-! ### Counting active records -/

theorem length_filter_le_of_imp (l : List OtpRecord) (p q : OtpRecord → Bool)
    (h : ∀ r, p r = true → q r = true) : (l.filter p).length ≤ (l.filter q).length := by
  induction l with
  | nil => simp
  | cons a rest ih =>
    rw [List.filter_cons, List.filter_cons]
    by_cases hp : p a = true
    · rw [if_pos hp, if_pos (h a hp)]
      simpa using ih
    · rw [if_neg hp]
      by_cases hq : q a = true
      · rw [if_pos hq]
        exact le_trans ih (Nat.le_succ _)
      · rw [if_neg hq]
        exact ih

theorem countActive_le_of_time (l : List OtpRecord) (e : String) (t1 t2 : Nat) (h : t1 ≤ t2) :
    countActive l e t2 ≤ countActive l e t1 := by
  unfold countActive
  apply length_filter_le_of_imp
  intro r hr
  simp only [Bool.and_eq_true] at hr ⊢
  exact ⟨hr.1, isActiveAt_mono t1 t2 r h hr.2⟩

theorem countActive_cons (a : OtpRecord) (l : List OtpRecord) (e : String) (t : Nat) :
    countActive (a :: l) e t =
      (if (a.email == e && isActiveAt t a) = true then 1 else 0) + countActive l e t := by
  unfold countActive
  rw [List.filter_cons]
  by_cases hc : (a.email == e && isActiveAt t a) = true
  · rw [if_pos hc, if_pos hc]
    simp [Nat.add_comm]
  · rw [if_neg hc, if_neg hc]
    simp

theorem countActive_eq_zero_of_any_false (l : List OtpRecord) (e : String) (t : Nat)
    (h : l.any (fun r => r.email == e && isActiveAt t r) = false) :
    countActive l e t = 0 := by
  unfold countActive
  rw [List.length_eq_zero, List.filter_eq_nil_iff]
  rw [List.any_eq_false] at h
  exact h

theorem supersedeAll_cons (a : OtpRecord) (l : List OtpRecord) (e : String) :
    supersedeAll (a :: l) e =
      (if (a.email == e) = true then
        (⟨a.email, a.code, a.issuedAt, a.expiresAt, a.used, true⟩ : OtpRecord) else a)
        :: supersedeAll l e := by
  unfold supersedeAll
  rw [List.map_cons]

theorem countActive_supersedeAll_le (l : List OtpRecord) (e e2 : String) (t : Nat) :
    countActive (supersedeAll l e) e2 t ≤ countActive l e2 t := by
  induction l with
  | nil => exact le_refl 0
  | cons a rest ih =>
    rw [supersedeAll_cons]
    by_cases hae : (a.email == e) = true
    · rw [if_pos hae, countActive_cons, countActive_cons]
      rw [if_neg (by simp [isActiveAt])]
      simp only [Nat.zero_add]
      exact le_trans ih (Nat.le_add_left _ _)
    · rw [if_neg hae, countActive_cons, countActive_cons]
      exact Nat.add_le_add_left ih _

theorem countActive_supersedeAll_self (l : List OtpRecord) (e : String) (t : Nat) :
    countActive (supersedeAll l e) e t = 0 := by
  induction l with
  | nil => rfl
  | cons a rest ih =>
    rw [supersedeAll_cons]
    by_cases hae : (a.email == e) = true
    · rw [if_pos hae, countActive_cons, if_neg (by simp [isActiveAt])]
      simpa using ih
    · rw [if_neg hae, countActive_cons, if_neg (by simp at hae ⊢; simp [hae])]
      simpa using ih

theorem countActive_markLatestUsed_le (l : List OtpRecord) (e e2 : String) (t : Nat) :
    countActive (markLatestUsed l e) e2 t ≤ countActive l e2 t := by
  induction l with
  | nil => exact le_refl 0
  | cons a rest ih =>
    rw [markLatestUsed]
    by_cases hc : (a.email == e && !a.superseded) = true
    · rw [if_pos hc, countActive_cons, countActive_cons]
      rw [if_neg (by simp [isActiveAt])]
      simp only [Nat.zero_add]
      exact Nat.le_add_left _ _
    · rw [if_neg hc, countActive_cons, countActive_cons]
      exact Nat.add_le_add_left ih _

/-! ## OTP claims -/

/-- C1: for every email and submitted code, verify succeeds iff the code
matches the active (latest unused, unexpired) OTP record for the email,
the current time is within the expiry, and the record is unused; with no
record for the email it fails with NotFound. -/
theorem C1_verify_success_iff (s : OtpState) (e : String) (c : Nat) (now : Nat) :
    (verifyOk s e c now = true ↔
      ∃ r, findLatest s.otps e = some r ∧ isActiveAt now r = true ∧ c = r.code ∧
        r.used = false ∧ now ≤ r.expiresAt) ∧
    ((∀ r ∈ s.otps, r.email ≠ e) → verify s e c now = Except.error OtpError.notFound) := by
  constructor
  · constructor
    · intro h
      unfold verifyOk at h
      cases hv : verify s e c now with
      | error err => rw [hv] at h; simp at h
      | ok s1 =>
        rcases verify_ok_dest s e c now s1 hv with ⟨r, hf, hu, hlt, hc, _⟩
        have hs := findLatest_some s.otps e r hf
        refine ⟨r, hf, ?_, hc, hu, Nat.le_of_lt hlt⟩
        simp [isActiveAt, hu, hs.2, hlt]
    · rintro ⟨r, hf, hact, hc, hu, hle⟩
      have hlt : now < r.expiresAt := by
        simp only [isActiveAt, Bool.and_eq_true, decide_eq_true_eq] at hact
        exact hact.2
      unfold verifyOk
      rw [verify_succeeds s e c now r hf hu hlt hc]
  · intro hno
    exact verify_of_none s e c now (findLatest_eq_none s.otps e hno)

theorem C1_verify_success_iff_witness :
    verify emptyState "a@b.cd" 123456 0 = Except.error OtpError.notFound :=
  (C1_verify_success_iff emptyState "a@b.cd" 123456 0).2 (by simp [emptyState])

/-- C3: once verify has succeeded for an email and code, a second call
with the same code fails with AlreadyUsed; the successful call marks the
record used and sets the owning user is_email_verified, so verify never
reports success twice for the same code. -/
theorem C3_second_verify_already_used (s s1 : OtpState) (e : String) (c : Nat) (t1 t2 : Nat)
    (h : verify s e c t1 = Except.ok s1) :
    verify s1 e c t2 = Except.error OtpError.alreadyUsed ∧
    (∃ r, findLatest s1.otps e = some r ∧ r.used = true ∧ r.code = c) ∧
    (∀ u ∈ s1.users, u.email = e → u.isEmailVerified = true) := by
  rcases verify_ok_dest s e c t1 s1 h with ⟨r, hf, hu, hlt, hc, hs1⟩
  subst hs1
  have hfl := findLatest_markLatestUsed s.otps e r hf
  refine ⟨?_, ⟨⟨r.email, r.code, r.issuedAt, r.expiresAt, true, r.superseded⟩, hfl, rfl, hc.symm⟩, ?_⟩
  · exact verify_already_used _ e c t2 _ hfl rfl
  · intro u hu2 he
    exact setVerified_mem s.users e u hu2 he

theorem C3_second_verify_already_used_witness :
    verify sampleStateUsed "a@b.cd" 123456 700 = Except.error OtpError.alreadyUsed ∧
    (∃ r, findLatest sampleStateUsed.otps "a@b.cd" = some r ∧ r.used = true ∧ r.code = 123456) ∧
    (∀ u ∈ sampleStateUsed.users, u.email = "a@b.cd" → u.isEmailVerified = true) :=
  C3_second_verify_already_used sampleState sampleStateUsed "a@b.cd" 123456 10 700 rfl

/-- C4: a code submitted at a time exactly equal to the record expiry is
treated as expired and verify fails with Expired (inclusive boundary),
and verify fails with Expired whenever now is past the expiry. -/
theorem C4_expiry_boundary (s : OtpState) (e : String) (c : Nat) (now : Nat) (r : OtpRecord)
    (hf : findLatest s.otps e = some r) (hu : r.used = false) :
    (now = r.expiresAt → verify s e c now = Except.error OtpError.expired) ∧
    (r.expiresAt < now → verify s e c now = Except.error OtpError.expired) :=
  ⟨fun h => verify_expired s e c now r hf hu (le_of_eq h.symm),
   fun h => verify_expired s e c now r hf hu (le_of_lt h)⟩

theorem C4_expiry_boundary_witness :
    verify sampleState "a@b.cd" 123456 600 = Except.error OtpError.expired :=
  (C4_expiry_boundary sampleState "a@b.cd" 123456 600 sampleRecord (by decide) rfl).1 rfl

/-- C5: after a successful issue, a second issue for the same email
while the issued code is still valid fails with RateLimitExceeded, and
once the remaining validity of the last-issued code has elapsed (the
cooldown), issuing succeeds again. -/
theorem C5_rate_limit (s s1 : OtpState) (e : String) (t1 t2 rand rand2 : Nat) (ok1 : IssueOk)
    (h : issue s e t1 rand = Except.ok (s1, ok1)) :
    (t2 < t1 + otpValiditySeconds →
      issue s1 e t2 rand2 = Except.error OtpError.rateLimitExceeded) ∧
    (t1 + otpValiditySeconds ≤ t2 →
      ∃ s2 ok2, issue s1 e t2 rand2 = Except.ok (s2, ok2)) := by
  rcases issue_ok_dest s e t1 rand s1 ok1 h with ⟨hv, ha, hs1, _⟩
  subst hs1
  constructor
  · intro hlt
    have hany : (((⟨e, genCode rand, t1, t1 + otpValiditySeconds, false, false⟩ : OtpRecord)
        :: s.otps).any (fun r => r.email == e && isActiveAt t2 r)) = true := by
      rw [List.any_cons]
      have hhead : ((⟨e, genCode rand, t1, t1 + otpValiditySeconds, false, false⟩ : OtpRecord).email == e
          && isActiveAt t2 ⟨e, genCode rand, t1, t1 + otpValiditySeconds, false, false⟩) = true := by
        simp [isActiveAt, hlt]
      rw [hhead, Bool.true_or]
    unfold issue
    rw [if_neg (by simp [hv]), if_pos hany]
  · intro hge
    have hle12 : t1 ≤ t2 := le_trans (Nat.le_add_right t1 otpValiditySeconds) hge
    have hany2 : (((⟨e, genCode rand, t1, t1 + otpValiditySeconds, false, false⟩ : OtpRecord)
        :: s.otps).any (fun r => r.email == e && isActiveAt t2 r)) = false := by
      rw [List.any_eq_false]
      intro x hx
      rcases List.mem_cons.mp hx with hh | ht
      · subst hh
        simp [isActiveAt, Nat.not_lt.mpr hge]
      · intro hpx
        simp only [Bool.and_eq_true] at hpx
        have hact1 : isActiveAt t1 x = true := isActiveAt_mono t1 t2 x hle12 hpx.2
        have hxno := (List.any_eq_false).mp ha x ht
        exact hxno (by simp [hpx.1, hact1])
    unfold issue
    rw [if_neg (by simp [hv]), if_neg (by simp [hany2])]
    exact ⟨_, _, rfl⟩

theorem C5_rate_limit_witness :
    issue sampleIssued "a@b.cd" 30 777 = Except.error OtpError.rateLimitExceeded :=
  (C5_rate_limit emptyState sampleIssued "a@b.cd" 0 30 123456 777 ⟨123456, 10⟩ rfl).1 (by decide)

theorem digitChar_isDigit : ∀ d : Nat, d < 10 → (Nat.digitChar d).isDigit = true := by decide

/-- C6: a successful issue returns a 6-digit numeric code together with
expires_in_minutes = 10, and the created record expires a fixed 10
minutes (600 seconds) after the issue time. -/
theorem C6_issue_response (s s1 : OtpState) (e : String) (t rand : Nat) (res : IssueOk)
    (h : issue s e t rand = Except.ok (s1, res)) :
    res.expiresInMinutes = 10 ∧ res.code < 1000000 ∧
    (codeDigits res.code).length = 6 ∧ (∀ ch ∈ codeDigits res.code, ch.isDigit = true) ∧
    (∃ r0 rest, s1.otps = r0 :: rest ∧ r0.expiresAt = t + 10 * 60 ∧ r0.code = res.code) := by
  rcases issue_ok_dest s e t rand s1 res h with ⟨hv, ha, hs1, hok⟩
  subst hs1
  subst hok
  refine ⟨rfl, Nat.mod_lt rand (by norm_num), rfl, ?_, ⟨_, _, rfl, rfl, rfl⟩⟩
  intro ch hch
  simp only [codeDigits, List.mem_cons, List.not_mem_nil, or_false] at hch
  rcases hch with rfl | rfl | rfl | rfl | rfl | rfl <;>
    exact digitChar_isDigit _ (Nat.mod_lt _ (by norm_num))

theorem C6_issue_response_witness :
    (⟨123456, 10⟩ : IssueOk).expiresInMinutes = 10 ∧ (⟨123456, 10⟩ : IssueOk).code < 1000000 ∧
    (codeDigits (⟨123456, 10⟩ : IssueOk).code).length = 6 ∧
    (∀ ch ∈ codeDigits (⟨123456, 10⟩ : IssueOk).code, ch.isDigit = true) ∧
    (∃ r0 rest, sampleIssued.otps = r0 :: rest ∧ r0.expiresAt = 0 + 10 * 60 ∧
      r0.code = (⟨123456, 10⟩ : IssueOk).code) :=
  C6_issue_response emptyState sampleIssued "a@b.cd" 0 123456 ⟨123456, 10⟩ rfl

theorem applyOp_preserves (s : OtpState) (t0 t1 : Nat) (op : Op) (hle : t0 ≤ t1)
    (hinv : ∀ e, countActive s.otps e t0 ≤ 1) :
    ∀ e2, countActive (applyOp s t1 op).otps e2 t1 ≤ 1 := by
  intro e2
  have hbase : countActive s.otps e2 t1 ≤ 1 :=
    le_trans (countActive_le_of_time s.otps e2 t0 t1 hle) (hinv e2)
  cases op with
  | issueOp e rand =>
    simp only [applyOp]
    split
    · next p hi =>
      obtain ⟨s2, ok2⟩ := p
      rcases issue_ok_dest s e t1 rand s2 ok2 hi with ⟨hv, ha, hs2, _⟩
      subst hs2
      show countActive
        ((⟨e, genCode rand, t1, t1 + otpValiditySeconds, false, false⟩ : OtpRecord) :: s.otps)
        e2 t1 ≤ 1
      rw [countActive_cons]
      by_cases hc : ((⟨e, genCode rand, t1, t1 + otpValiditySeconds, false, false⟩ : OtpRecord).email == e2
          && isActiveAt t1 ⟨e, genCode rand, t1, t1 + otpValiditySeconds, false, false⟩) = true
      · have hee : e = e2 := by
          have hc2 := hc
          simp only [Bool.and_eq_true, beq_iff_eq] at hc2
          exact hc2.1
        subst hee
        rw [if_pos hc, countActive_eq_zero_of_any_false s.otps e t1 ha]
      · rw [if_neg hc]
        simpa using hbase
    · next hi => exact hbase
  | resendOp e rand =>
    simp only [applyOp]
    split
    · next p hi =>
      obtain ⟨s2, ok2⟩ := p
      rcases resend_ok_dest s e t1 rand s2 ok2 hi with ⟨hv, hs2, _⟩
      subst hs2
      show countActive
        ((⟨e, genCode rand, t1, t1 + otpValiditySeconds, false, false⟩ : OtpRecord)
          :: supersedeAll s.otps e) e2 t1 ≤ 1
      rw [countActive_cons]
      by_cases hee : e = e2
      · subst hee
        rw [countActive_supersedeAll_self]
        split <;> simp
      · rw [if_neg (by simp [isActiveAt, hee])]
        simp only [Nat.zero_add]
        exact le_trans (countActive_supersedeAll_le s.otps e e2 t1) hbase
    · next hi => exact hbase
  | verifyOp e c =>
    simp only [applyOp]
    split
    · next s2 hi =>
      rcases verify_ok_dest s e c t1 s2 hi with ⟨r, hf, hu, hlt, hc2, hs2⟩
      subst hs2
      show countActive (markLatestUsed s.otps e) e2 t1 ≤ 1
      exact le_trans (countActive_markLatestUsed_le s.otps e e2 t1) hbase
    · next hi => exact hbase

theorem runOps_invariant (ops : List (Nat × Op)) (s : OtpState) (t0 : Nat)
    (hmono : timesMono t0 ops) (hinv : ∀ e, countActive s.otps e t0 ≤ 1) :
    ∀ e now, endTime t0 ops ≤ now → countActive (runOps s ops).otps e now ≤ 1 := by
  induction ops generalizing s t0 with
  | nil =>
    intro e now hn
    exact le_trans (countActive_le_of_time s.otps e t0 now hn) (hinv e)
  | cons p rest ih =>
    obtain ⟨h1, h2⟩ := hmono
    intro e now hn
    exact ih (applyOp s p.1 p.2) p.1 h2 (applyOp_preserves s t0 p.1 p.2 h1 hinv) e now hn

/-- C7: resend invalidates (marks superseded) every previous OTP record
for the email so that only the newest record is checkable, and along any
timed trace of issue/resend/verify operations from a store with no OTP
records, at most one active (unused, unexpired, checkable) record per
email exists at verification time. -/
theorem C7_resend_supersedes (s s1 : OtpState) (e : String) (t rand : Nat) (ok1 : IssueOk)
    (h : resend s e t rand = Except.ok (s1, ok1)) :
    (∃ r0 rest, s1.otps = r0 :: rest ∧ r0.email = e ∧ r0.superseded = false ∧
      (∀ r ∈ rest, r.email = e → r.superseded = true)) ∧
    (∀ (us : List UserRec) (ops : List (Nat × Op)) (t0 now : Nat) (e2 : String),
      timesMono t0 ops → endTime t0 ops ≤ now →
      countActive (runOps ⟨[], us⟩ ops).otps e2 now ≤ 1) := by
  constructor
  · rcases resend_ok_dest s e t rand s1 ok1 h with ⟨hv, hs1, _⟩
    subst hs1
    refine ⟨_, _, rfl, rfl, rfl, ?_⟩
    intro r hr he
    exact supersedeAll_mem s.otps e r hr he
  · intro us ops t0 now e2 hmono hend
    exact runOps_invariant ops ⟨[], us⟩ t0 hmono (fun e3 => by simp [countActive]) e2 now hend

theorem C7_resend_supersedes_witness :
    (∃ r0 rest, sampleResent.otps = r0 :: rest ∧ r0.email = "a@b.cd" ∧ r0.superseded = false ∧
      (∀ r ∈ rest, r.email = "a@b.cd" → r.superseded = true)) ∧
    (∀ (us : List UserRec) (ops : List (Nat × Op)) (t0 now : Nat) (e2 : String),
      timesMono t0 ops → endTime t0 ops ≤ now →
      countActive (runOps ⟨[], us⟩ ops).otps e2 now ≤ 1) :=
  C7_resend_supersedes sampleIssued sampleResent "a@b.cd" 30 654321 ⟨654321, 10⟩ rfl

end Spec2Proof
